import Mathlib

/-!
Verification development for the timeline data model of the clip-based video
editor.  The definitions below are a shallow embedding of the Zustand store
`useTimelineStore` (timeline-store) and of the active-clip resolver in
`preview-panel.tsx`.  JavaScript numbers are modelled by `ℚ` (all arithmetic
performed by the store is exact on the inputs of interest: `Math.max`,
`Math.min`, addition and subtraction), string ids stay strings, and the
nondeterministic `crypto.randomUUID()` is modelled by passing the freshly
generated id as an explicit argument.
-/

namespace Ego

/-- Track kind: `"video" | "audio" | "effects"`. -/
inductive TrackType where
  | video
  | audio
  | effects
deriving DecidableEq, Repr

/-- `TimelineClip` from timeline-store.  `trimStart`/`trimEnd` are optional
fields in the TypeScript interface, hence `Option ℚ` here. -/
structure TimelineClip where
  id : String
  mediaId : String
  name : String
  duration : ℚ
  trimStart : Option ℚ
  trimEnd : Option ℚ
  originalDuration : ℚ
  startTime : ℚ
deriving DecidableEq, Repr

/-- `TimelineTrack` from timeline-store. -/
structure TimelineTrack where
  id : String
  name : String
  type : TrackType
  clips : List TimelineClip
deriving DecidableEq, Repr

/-- The mutable state held by `useTimelineStore` (fields only; the actions are
modelled as functions `TimelineState → ... → TimelineState` below). -/
structure TimelineState where
  tracks : List TimelineTrack
  playheadPosition : ℚ
  isPlaying : Bool
  totalDuration : ℚ
  zoomLevel : ℚ
  scrollPosition : ℚ
  viewportDuration : ℚ
deriving DecidableEq, Repr

/-- The argument of `addClipToTrack`: `Omit<TimelineClip, "id">`. -/
structure ClipData where
  mediaId : String
  name : String
  duration : ℚ
  trimStart : Option ℚ
  trimEnd : Option ℚ
  originalDuration : ℚ
  startTime : ℚ
deriving DecidableEq, Repr

/-- The initial state of the store (`tracks: [], playheadPosition: 0,
isPlaying: false, totalDuration: 0, zoomLevel: 1.0, scrollPosition: 0,
viewportDuration: 60`). -/
def initialState : TimelineState :=
  { tracks := []
    playheadPosition := 0
    isPlaying := false
    totalDuration := 0
    zoomLevel := 1
    scrollPosition := 0
    viewportDuration := 60 }

/-- `` `${type.charAt(0).toUpperCase() + type.slice(1)} Track` `` -/
def TrackType.label : TrackType → String
  | .video => "Video"
  | .audio => "Audio"
  | .effects => "Effects"

/-- `addTrack(type)`: appends a fresh empty track.  `freshId` models
`crypto.randomUUID()`; in the source the new id is also returned. -/
def addTrack (s : TimelineState) (ty : TrackType) (freshId : String) : TimelineState :=
  { s with tracks := s.tracks ++ [{ id := freshId, name := ty.label ++ " Track", type := ty, clips := [] }] }

/-- `removeTrack(trackId)`. -/
def removeTrack (s : TimelineState) (trackId : String) : TimelineState :=
  { s with tracks := s.tracks.filter (fun track => !(track.id == trackId)) }

/-- The inner `reduce` of `updateTotalDuration` and `addClipToTrack`:
`track.clips.reduce((m, clip) => Math.max(m, clip.startTime + clip.duration), 0)`. -/
def trackMaxEnd (t : TimelineTrack) : ℚ :=
  t.clips.foldl (fun m clip => max m (clip.startTime + clip.duration)) 0

/-- The outer `reduce` of `updateTotalDuration`. -/
def maxClipEnd (tracks : List TimelineTrack) : ℚ :=
  tracks.foldl (fun m track => max m (trackMaxEnd track)) 0

/-- `updateTotalDuration()`: recomputes
`totalDuration = Math.max(maxDuration, 300)`. -/
def updateTotalDuration (s : TimelineState) : TimelineState :=
  { s with totalDuration := max (maxClipEnd s.tracks) 300 }

/-- `addClipToTrack(trackId, clipData)`.  The placement `startTime` is computed
from the existing clips of the (first) track with the given id, ignoring the
caller-supplied hint `clipData.startTime`; `trimStart`/`trimEnd` are
initialised to `0`/`duration` and `originalDuration` to `duration`. -/
def addClipToTrack (s : TimelineState) (trackId : String) (clipData : ClipData)
    (freshId : String) : TimelineState :=
  let track := s.tracks.find? (fun t => t.id == trackId)
  let startTime : ℚ :=
    match track with
    | some track => track.clips.foldl (fun m clip => max m (clip.startTime + clip.duration)) 0
    | none => 0
  let newClip : TimelineClip :=
    { id := freshId
      mediaId := clipData.mediaId
      name := clipData.name
      duration := clipData.duration
      trimStart := some 0
      trimEnd := some clipData.duration
      originalDuration := clipData.duration
      startTime := startTime }
  updateTotalDuration
    { s with tracks := s.tracks.map (fun track =>
        if track.id == trackId then { track with clips := track.clips ++ [newClip] } else track) }

/-- `removeClipFromTrack(trackId, clipId)`. -/
def removeClipFromTrack (s : TimelineState) (trackId clipId : String) : TimelineState :=
  updateTotalDuration
    { s with tracks := s.tracks.map (fun track =>
        if track.id == trackId then
          { track with clips := track.clips.filter (fun clip => !(clip.id == clipId)) }
        else track) }

/-- The lookup both `moveClipToTrack` and `updateClipStartTime` perform:
`state.tracks.find(t => t.id === fromTrackId)?.clips.find(c => c.id === clipId)`. -/
def findClipToMove (s : TimelineState) (fromTrackId clipId : String) : Option TimelineClip :=
  (s.tracks.find? (fun track => track.id == fromTrackId)).bind
    (fun track => track.clips.find? (fun clip => clip.id == clipId))

/-- `moveClipToTrack(fromTrackId, toTrackId, clipId, insertIndex?)`.  The
`splice(index, 0, clip)` insertion is `take index ++ clip :: drop index`
(JavaScript clamps an overlong index to the length, as `take`/`drop` do). -/
def moveClipToTrack (s : TimelineState) (fromTrackId toTrackId clipId : String)
    (insertIndex : Option Nat) : TimelineState :=
  updateTotalDuration <|
    match findClipToMove s fromTrackId clipId with
    | none => s
    | some clipToMove =>
      { s with tracks := s.tracks.map (fun track =>
          if track.id == fromTrackId then
            { track with clips := track.clips.filter (fun clip => !(clip.id == clipId)) }
          else if track.id == toTrackId then
            { track with clips :=
                track.clips.take (insertIndex.getD track.clips.length) ++
                  clipToMove :: track.clips.drop (insertIndex.getD track.clips.length) }
          else track) }

/-- The per-track body of `reorderClipInTrack`: find the clip's index, splice
it out, splice it back in at `newIndex`. -/
def reorderTrack (track : TimelineTrack) (clipId : String) (newIndex : Nat) : TimelineTrack :=
  match track.clips.findIdx? (fun clip => clip.id == clipId) with
  | none => track
  | some clipIndex =>
    match track.clips[clipIndex]? with
    | none => track
    | some movedClip =>
      let removed := track.clips.take clipIndex ++ track.clips.drop (clipIndex + 1)
      { track with clips := removed.take newIndex ++ movedClip :: removed.drop newIndex }

/-- `reorderClipInTrack(trackId, clipId, newIndex)`. -/
def reorderClipInTrack (s : TimelineState) (trackId clipId : String) (newIndex : Nat) :
    TimelineState :=
  updateTotalDuration
    { s with tracks := s.tracks.map (fun track =>
        if track.id == trackId then reorderTrack track clipId newIndex else track) }

/-- The per-clip body of `trimClip`: defaulting of the optional arguments,
clamping (`validTrimStart`, `validTrimEnd`, minimum duration `0.1`), duration
recomputation, and the start-time shift applied only when `trimStart` was
supplied. -/
def trimClipClip (clip : TimelineClip) (trimStart trimEnd : Option ℚ) : TimelineClip :=
  let currentTrimStart := clip.trimStart.getD 0
  let currentTrimEnd := clip.trimEnd.getD clip.originalDuration
  let newTrimStart := trimStart.getD currentTrimStart
  let newTrimEnd := trimEnd.getD currentTrimEnd
  let validTrimStart := max 0 (min newTrimStart clip.originalDuration)
  let validTrimEnd := max (validTrimStart + 1/10) (min newTrimEnd clip.originalDuration)
  let newDuration := validTrimEnd - validTrimStart
  let newStartTime :=
    match trimStart with
    | some _ => clip.startTime + (validTrimStart - currentTrimStart)
    | none => clip.startTime
  { clip with
      trimStart := some validTrimStart
      trimEnd := some validTrimEnd
      duration := newDuration
      startTime := newStartTime }

/-- The per-track body of `trimClip`: map `trimClipClip` over the matching
clip. -/
def trimTrack (track : TimelineTrack) (clipId : String) (trimStart trimEnd : Option ℚ) :
    TimelineTrack :=
  { track with clips := track.clips.map (fun clip =>
      if clip.id == clipId then trimClipClip clip trimStart trimEnd else clip) }

/-- `trimClip(trackId, clipId, trimStart?, trimEnd?)`. -/
def trimClip (s : TimelineState) (trackId clipId : String) (trimStart trimEnd : Option ℚ) :
    TimelineState :=
  updateTotalDuration
    { s with tracks := s.tracks.map (fun track =>
        if track.id == trackId then trimTrack track clipId trimStart trimEnd else track) }

/-- The `firstClip` built by `splitClip`: keeps `trimStart`, gets
`trimEnd = actualSplitTime`, duration recomputed. -/
def splitFirst (originalClip : TimelineClip) (actualSplitTime : ℚ) (id1 : String) :
    TimelineClip :=
  { originalClip with
      id := id1
      name := originalClip.name ++ " (1)"
      trimEnd := some actualSplitTime
      duration := actualSplitTime - originalClip.trimStart.getD 0 }

/-- The `secondClip` built by `splitClip`: gets `trimStart = actualSplitTime`,
keeps `trimEnd`, placed at `originalClip.startTime + firstClip.duration`. -/
def splitSecond (originalClip : TimelineClip) (actualSplitTime : ℚ) (id2 : String)
    (firstClip : TimelineClip) : TimelineClip :=
  { originalClip with
      id := id2
      name := originalClip.name ++ " (2)"
      trimStart := some actualSplitTime
      duration := originalClip.trimEnd.getD originalClip.originalDuration - actualSplitTime
      startTime := originalClip.startTime + firstClip.duration }

/-- The per-track body of `splitClip`: locate the clip, build the two halves,
and `splice(clipIndex, 1, firstClip, secondClip)`.  `id1`/`id2` model the two
`crypto.randomUUID()` calls. -/
def splitTrack (track : TimelineTrack) (clipId : String) (splitTime : ℚ)
    (id1 id2 : String) : TimelineTrack :=
  match track.clips.findIdx? (fun clip => clip.id == clipId) with
  | none => track
  | some clipIndex =>
    match track.clips[clipIndex]? with
    | none => track
    | some originalClip =>
      let actualSplitTime := originalClip.trimStart.getD 0 + splitTime
      let firstClip := splitFirst originalClip actualSplitTime id1
      let secondClip := splitSecond originalClip actualSplitTime id2 firstClip
      { track with clips :=
          track.clips.take clipIndex ++ firstClip :: secondClip :: track.clips.drop (clipIndex + 1) }

/-- `splitClip(trackId, clipId, splitTime)`. -/
def splitClip (s : TimelineState) (trackId clipId : String) (splitTime : ℚ)
    (id1 id2 : String) : TimelineState :=
  updateTotalDuration
    { s with tracks := s.tracks.map (fun track =>
        if track.id == trackId then splitTrack track clipId splitTime id1 id2 else track) }

/-- `setPlayheadPosition(position)`: clamp to `≥ 0`, and auto-extend
`totalDuration` when the new position lands within 30 seconds of the end. -/
def setPlayheadPosition (s : TimelineState) (position : ℚ) : TimelineState :=
  let newPosition := max 0 position
  if s.totalDuration - 30 < newPosition then
    { s with
        playheadPosition := newPosition
        totalDuration := max (s.totalDuration + 60) (newPosition + 60) }
  else
    { s with playheadPosition := newPosition }

/-- `setIsPlaying(playing)`. -/
def setIsPlaying (s : TimelineState) (playing : Bool) : TimelineState :=
  { s with isPlaying := playing }

/-- `updateClipStartTime(fromTrackId, toTrackId, clipId, newStartTime)`. -/
def updateClipStartTime (s : TimelineState) (fromTrackId toTrackId clipId : String)
    (newStartTime : ℚ) : TimelineState :=
  updateTotalDuration <|
    match findClipToMove s fromTrackId clipId with
    | none => s
    | some clipToMove =>
      let updatedClip := { clipToMove with startTime := newStartTime }
      { s with tracks := s.tracks.map (fun track =>
          if track.id == fromTrackId && fromTrackId == toTrackId then
            { track with clips := track.clips.map (fun clip =>
                if clip.id == clipId then updatedClip else clip) }
          else if track.id == fromTrackId then
            { track with clips := track.clips.filter (fun clip => !(clip.id == clipId)) }
          else if track.id == toTrackId then
            { track with clips := track.clips ++ [updatedClip] }
          else track) }

/-- `setZoomLevel(level)`: clamp to `[0.1, 10]`, set
`viewportDuration = 60 / level`, reset `scrollPosition` to 0. -/
def setZoomLevel (s : TimelineState) (level : ℚ) : TimelineState :=
  let clampedLevel := max (1/10) (min level 10)
  { s with
      zoomLevel := clampedLevel
      viewportDuration := 60 / clampedLevel
      scrollPosition := 0 }

/-- `setScrollPosition(position)`: clamp to `[0, max(0, totalDuration −
viewportDuration)]`. -/
def setScrollPosition (s : TimelineState) (position : ℚ) : TimelineState :=
  let maxScroll := max 0 (s.totalDuration - s.viewportDuration)
  { s with scrollPosition := max 0 (min position maxScroll) }

/-- `setViewportDuration(duration)`: floor of 1 second. -/
def setViewportDuration (s : TimelineState) (duration : ℚ) : TimelineState :=
  { s with viewportDuration := max 1 duration }

/-- `zoomIn()`. -/
def zoomIn (s : TimelineState) : TimelineState :=
  setZoomLevel s (min (s.zoomLevel * (3/2)) 10)

/-- `zoomOut()`. -/
def zoomOut (s : TimelineState) : TimelineState :=
  setZoomLevel s (max (s.zoomLevel / (3/2)) (1/10))

/-- `resetZoom()`. -/
def resetZoom (s : TimelineState) : TimelineState :=
  { setZoomLevel s 1 with scrollPosition := 0 }

/-- Query helper (the lookup pattern used throughout the store): first track
with the given id. -/
def getTrack (s : TimelineState) (trackId : String) : Option TimelineTrack :=
  s.tracks.find? (fun track => track.id == trackId)

/-- Query helper: first clip with the given id on the first track with the
given id. -/
def getClip (s : TimelineState) (trackId clipId : String) : Option TimelineClip :=
  (getTrack s trackId).bind (fun track => track.clips.find? (fun clip => clip.id == clipId))

/-- The states reachable from the store's initial state by its actions (fresh
ids are arbitrary strings, modelling `crypto.randomUUID()`). -/
inductive Reachable : TimelineState → Prop where
  | init : Reachable initialState
  | addTrack (s : TimelineState) (ty : TrackType) (fid : String) :
      Reachable s → Reachable (addTrack s ty fid)
  | removeTrack (s : TimelineState) (tid : String) :
      Reachable s → Reachable (removeTrack s tid)
  | addClipToTrack (s : TimelineState) (tid : String) (d : ClipData) (fid : String) :
      Reachable s → Reachable (addClipToTrack s tid d fid)
  | removeClipFromTrack (s : TimelineState) (tid cid : String) :
      Reachable s → Reachable (removeClipFromTrack s tid cid)
  | moveClipToTrack (s : TimelineState) (fid tid cid : String) (idx : Option Nat) :
      Reachable s → Reachable (moveClipToTrack s fid tid cid idx)
  | reorderClipInTrack (s : TimelineState) (tid cid : String) (idx : Nat) :
      Reachable s → Reachable (reorderClipInTrack s tid cid idx)
  | trimClip (s : TimelineState) (tid cid : String) (ts te : Option ℚ) :
      Reachable s → Reachable (trimClip s tid cid ts te)
  | splitClip (s : TimelineState) (tid cid : String) (st : ℚ) (id1 id2 : String) :
      Reachable s → Reachable (splitClip s tid cid st id1 id2)
  | setPlayheadPosition (s : TimelineState) (p : ℚ) :
      Reachable s → Reachable (setPlayheadPosition s p)
  | setIsPlaying (s : TimelineState) (b : Bool) :
      Reachable s → Reachable (setIsPlaying s b)
  | updateTotalDuration (s : TimelineState) :
      Reachable s → Reachable (updateTotalDuration s)
  | updateClipStartTime (s : TimelineState) (fid tid cid : String) (v : ℚ) :
      Reachable s → Reachable (updateClipStartTime s fid tid cid v)
  | setZoomLevel (s : TimelineState) (l : ℚ) :
      Reachable s → Reachable (setZoomLevel s l)
  | setScrollPosition (s : TimelineState) (p : ℚ) :
      Reachable s → Reachable (setScrollPosition s p)
  | setViewportDuration (s : TimelineState) (d : ℚ) :
      Reachable s → Reachable (setViewportDuration s d)
  | zoomIn (s : TimelineState) : Reachable s → Reachable (zoomIn s)
  | zoomOut (s : TimelineState) : Reachable s → Reachable (zoomOut s)
  | resetZoom (s : TimelineState) : Reachable s → Reachable (resetZoom s)

/-- Media kind: `"video" | "audio" | "image"`. -/
inductive MediaType where
  | video
  | audio
  | image
deriving DecidableEq, Repr

/-- Modelled from the spec: the media-store module that declares `MediaItem`
is not among the provided sources (only its consumers are); §3 of the spec
gives `{ id, type ∈ {video,audio,image}, url, duration (0 for images),
thumbnailUrl?, name }`.  Only `id` is inspected by the active-clip resolver. -/
structure MediaItem where
  id : String
  type : MediaType
  url : String
  duration : ℚ
  thumbnailUrl : Option String
  name : String
deriving DecidableEq, Repr

/-- The inner loop of `getActiveClip` in `preview-panel.tsx`: scan the clips of
one track in list order; on a time match, return the clip paired with its
media item if the media id still resolves, otherwise keep scanning. -/
def findActiveInClips (mediaItems : List MediaItem) (playheadPosition : ℚ) :
    List TimelineClip → Option (TimelineClip × MediaItem)
  | [] => none
  | clip :: rest =>
    let clipStart := clip.startTime
    let clipEnd := clip.startTime + clip.duration
    if clipStart ≤ playheadPosition ∧ playheadPosition < clipEnd then
      match mediaItems.find? (fun item => item.id == clip.mediaId) with
      | some mediaItem => some (clip, mediaItem)
      | none => findActiveInClips mediaItems playheadPosition rest
    else findActiveInClips mediaItems playheadPosition rest

/-- `getActiveClip` from `preview-panel.tsx`: scan tracks in order, clips in
list order, return the first clip containing the playhead whose media item
still exists; `none` when nothing matches. -/
def getActiveClip (tracks : List TimelineTrack) (mediaItems : List MediaItem)
    (playheadPosition : ℚ) : Option (TimelineClip × MediaItem) :=
  match tracks with
  | [] => none
  | track :: rest =>
    match findActiveInClips mediaItems playheadPosition track.clips with
    | some r => some r
    | none => getActiveClip rest mediaItems playheadPosition

/-! ### Concrete scenario states -/

/-- Clip payload used in the concrete scenarios; the `startTime := 99` hint is
deliberately nonzero so that the append rule's disregard of the hint shows. -/
def clipData (dur : ℚ) : ClipData :=
  { mediaId := "m1"
    name := "Clip"
    duration := dur
    trimStart := none
    trimEnd := none
    originalDuration := dur
    startTime := 99 }

/-- A state with one empty video track `"t1"`. -/
def sTrack : TimelineState := addTrack initialState TrackType.video "t1"

/-- One track `"t1"` holding one clip `"c1"` with
`{startTime 0, originalDuration 10, trimStart 0, trimEnd 10, duration 10}`. -/
def sOne : TimelineState := addClipToTrack sTrack "t1" (clipData 10) "c1"

/-- Like `sOne` but the clip has duration 2. -/
def sShort : TimelineState := addClipToTrack sTrack "t1" (clipData 2) "c1"

/-! ### Helper lemmas -/

theorem find_replace {α : Type _} (p : α → Bool) (f : α → α) (l : List α)
    (hf : ∀ a, p a = true → p (f a) = true) :
    (l.map (fun a => if p a then f a else a)).find? p = (l.find? p).map f := by
  induction l with
  | nil => rfl
  | cons a l ih =>
    simp only [List.map_cons]
    by_cases h : p a = true
    · rw [if_pos h, List.find?_cons_of_pos _ (hf a h), List.find?_cons_of_pos _ h,
        Option.map_some']
    · have h' : p a = false := by simpa using h
      rw [if_neg (by simp [h']), List.find?_cons_of_neg _ (by simp [h']),
        List.find?_cons_of_neg _ (by simp [h']), ih]

theorem map_if_eq_self {α : Type _} (p : α → Bool) (f : α → α) (l : List α)
    (h : ∀ a ∈ l, p a = true → f a = a) :
    l.map (fun a => if p a then f a else a) = l := by
  induction l with
  | nil => rfl
  | cons a l ih =>
    simp only [List.map_cons, List.cons.injEq]
    refine ⟨?_, ih fun a ha => h a (List.mem_cons_of_mem _ ha)⟩
    by_cases hp : p a = true
    · rw [if_pos hp]; exact h a (List.mem_cons_self _ _) hp
    · exact if_neg (by simpa using hp)

theorem filter_ne_eq_self {α : Type _} (q : α → Bool) (l : List α)
    (h : ∀ a ∈ l, q a = false) :
    l.filter (fun a => !(q a)) = l := by
  induction l with
  | nil => rfl
  | cons a l ih =>
    have ha : q a = false := h a (List.mem_cons_self _ _)
    simp [List.filter_cons, ha, ih fun a ha' => h a (List.mem_cons_of_mem _ ha')]

theorem findIdx?_go_none {α : Type _} (q : α → Bool) (l : List α)
    (h : ∀ a ∈ l, q a = false) : ∀ i, l.findIdx? q i = none := by
  induction l with
  | nil => intro _; rfl
  | cons a l ih =>
    intro i
    have ha : q a = false := h a (List.mem_cons_self _ _)
    show (if q a = true then some i else l.findIdx? q (i + 1)) = none
    rw [ha]
    simp only [Bool.false_eq_true, if_false]
    exact ih (fun a ha' => h a (List.mem_cons_of_mem _ ha')) (i + 1)

theorem findIdx?_none_of_all {α : Type _} (q : α → Bool) (l : List α)
    (h : ∀ a ∈ l, q a = false) : l.findIdx? q = none :=
  findIdx?_go_none q l h 0

theorem clips_foldl_le_init (l : List TimelineClip) :
    ∀ init : ℚ, init ≤ l.foldl (fun m clip => max m (clip.startTime + clip.duration)) init := by
  induction l with
  | nil => intro init; exact le_refl init
  | cons a l ih =>
    intro init
    exact le_trans (le_max_left _ _) (ih (max init (a.startTime + a.duration)))

theorem le_clips_foldl (l : List TimelineClip) :
    ∀ (init : ℚ) (c : TimelineClip), c ∈ l →
      c.startTime + c.duration
        ≤ l.foldl (fun m clip => max m (clip.startTime + clip.duration)) init := by
  induction l with
  | nil => intro _ c hc; cases hc
  | cons b l ih =>
    intro init c hc
    rcases List.mem_cons.mp hc with rfl | hm
    · exact le_trans (le_max_right init _) (clips_foldl_le_init l _)
    · exact ih _ c hm

theorem tracks_foldl_le_init (l : List TimelineTrack) :
    ∀ init : ℚ, init ≤ l.foldl (fun m track => max m (trackMaxEnd track)) init := by
  induction l with
  | nil => intro init; exact le_refl init
  | cons a l ih =>
    intro init
    exact le_trans (le_max_left _ _) (ih (max init (trackMaxEnd a)))

theorem le_tracks_foldl (l : List TimelineTrack) :
    ∀ (init : ℚ) (t : TimelineTrack), t ∈ l →
      trackMaxEnd t ≤ l.foldl (fun m track => max m (trackMaxEnd track)) init := by
  induction l with
  | nil => intro _ t ht; cases ht
  | cons b l ih =>
    intro init t ht
    rcases List.mem_cons.mp ht with rfl | hm
    · exact le_trans (le_max_right init _) (tracks_foldl_le_init l _)
    · exact ih _ t hm

theorem getTrack_after_map (s : TimelineState) (tid : String)
    (g : TimelineTrack → TimelineTrack) (hg : ∀ t, (g t).id = t.id)
    (s' : TimelineState)
    (hs : s'.tracks = s.tracks.map (fun t => if t.id == tid then g t else t)) :
    getTrack s' tid = (getTrack s tid).map g := by
  unfold getTrack
  rw [hs]
  exact find_replace _ g s.tracks (fun t h => by rw [hg]; exact h)

theorem getClip_trimClip (s : TimelineState) (tid cid : String) (ts te : Option ℚ) :
    getClip (trimClip s tid cid ts te) tid cid
      = (getClip s tid cid).map (fun c => trimClipClip c ts te) := by
  have hs := getTrack_after_map s tid (fun t => trimTrack t cid ts te)
    (fun t => rfl) (trimClip s tid cid ts te) rfl
  unfold getClip
  rw [hs]
  cases h : getTrack s tid with
  | none => rfl
  | some t =>
    simp only [Option.map_some', Option.some_bind]
    exact find_replace (fun c : TimelineClip => c.id == cid)
      (fun c => trimClipClip c ts te) t.clips (fun c hc => hc)

theorem updateTotalDuration_bound (s : TimelineState) :
    300 ≤ (updateTotalDuration s).totalDuration ∧
      ∀ t ∈ (updateTotalDuration s).tracks, ∀ c ∈ t.clips,
        c.startTime + c.duration ≤ (updateTotalDuration s).totalDuration := by
  refine ⟨le_max_right _ _, ?_⟩
  intro t ht c hc
  have h1 : c.startTime + c.duration ≤ trackMaxEnd t := le_clips_foldl t.clips 0 c hc
  have h2 : trackMaxEnd t ≤ maxClipEnd s.tracks := le_tracks_foldl s.tracks 0 t ht
  exact le_trans (le_trans h1 h2) (le_max_left _ _)

theorem trimClipClip_props (clip : TimelineClip) (ts te : Option ℚ) :
    0 ≤ (trimClipClip clip ts te).trimStart.getD 0 ∧
    (trimClipClip clip ts te).trimStart.getD 0 + 1/10 ≤ (trimClipClip clip ts te).trimEnd.getD 0 ∧
    (trimClipClip clip ts te).duration
      = (trimClipClip clip ts te).trimEnd.getD 0 - (trimClipClip clip ts te).trimStart.getD 0 ∧
    (trimClipClip clip ts te).trimEnd.getD 0
      ≤ max (trimClipClip clip ts te).originalDuration
          ((trimClipClip clip ts te).trimStart.getD 0 + 1/10) ∧
    ((trimClipClip clip ts te).trimStart.getD 0 + 1/10
        ≤ (trimClipClip clip ts te).originalDuration →
      (trimClipClip clip ts te).trimEnd.getD 0 ≤ (trimClipClip clip ts te).originalDuration) ∧
    (0 ≤ (trimClipClip clip ts te).originalDuration →
      (trimClipClip clip ts te).trimStart.getD 0 ≤ (trimClipClip clip ts te).originalDuration) := by
  show 0 ≤ (max 0 (min (ts.getD (clip.trimStart.getD 0)) clip.originalDuration) : ℚ) ∧ _
  refine ⟨le_max_left _ _, le_max_left _ _, rfl, ?_, ?_, ?_⟩
  · exact max_le (le_max_right _ _) (le_trans (min_le_right _ _) (le_max_left _ _))
  · intro h
    exact max_le h (min_le_right _ _)
  · intro h
    exact max_le h (min_le_right _ _)

theorem getClip_some_of_map (s : TimelineState) (tid cid : String) (ts te : Option ℚ)
    (c : TimelineClip) (h : getClip (trimClip s tid cid ts te) tid cid = some c) :
    ∃ c0, getClip s tid cid = some c0 ∧ c = trimClipClip c0 ts te := by
  rw [getClip_trimClip] at h
  obtain ⟨c0, hc0, hmap⟩ := Option.map_eq_some'.mp h
  exact ⟨c0, hc0, hmap.symm⟩

/-- The clip of `sOne` in explicit form. -/
def clip1 : TimelineClip :=
  { id := "c1", mediaId := "m1", name := "Clip", duration := 10,
    trimStart := some 0, trimEnd := some 10, originalDuration := 10, startTime := 0 }

/-- The video track `"t1"` holding the given clips (explicit literal used to
state concrete scenario results). -/
def track1 (cs : List TimelineClip) : TimelineTrack :=
  { id := "t1", name := "Video Track", type := TrackType.video, clips := cs }

/-- A state literal with one `"t1"` video track: all non-track fields at their
initial values except `totalDuration`. -/
def oneTrackState (cs : List TimelineClip) (total : ℚ) : TimelineState :=
  { tracks := [track1 cs], playheadPosition := 0, isPlaying := false,
    totalDuration := total, zoomLevel := 1, scrollPosition := 0, viewportDuration := 60 }

theorem videoTrackName : "Video" ++ " Track" = "Video Track" := rfl

theorem sOne_eq : sOne = oneTrackState [clip1] 300 := by
  norm_num [sOne, sTrack, initialState, clipData, addClipToTrack, addTrack,
    updateTotalDuration, maxClipEnd, trackMaxEnd, List.find?, List.foldl,
    max_def, min_def, TrackType.label, clip1, track1, oneTrackState]
  decide

/-! ### C1 -/

/-- A reachable state exhibiting the trim-invariant violation: clip of
`originalDuration` 10, trimmed with `trimStart = 10`. -/
def exC1 : TimelineState := trimClip sOne "t1" "c1" (some 10) none

/-- The clip produced by the `exC1` trim. -/
def exC1clip : TimelineClip :=
  { id := "c1", mediaId := "m1", name := "Clip", duration := 1/10,
    trimStart := some 10, trimEnd := some (101/10), originalDuration := 10, startTime := 10 }

/-- C1 (counterexample): the claim "after any `trimClip` call every clip
satisfies `trimEnd ≤ originalDuration`" is false on the code: from the
reachable state `sOne` (one clip with `originalDuration = 10`), the call
`trimClip "t1" "c1" (trimStart := 10)` produces `trimEnd = 10.1 > 10`,
because `validTrimEnd = max (validTrimStart + 0.1) (min newTrimEnd
originalDuration)` lets the minimum-duration clamp override the
`originalDuration` cap. -/
theorem C1_counterexample :
    Reachable exC1 ∧ getClip exC1 "t1" "c1" = some exC1clip ∧
      ¬ (exC1clip.trimEnd.getD 0 ≤ exC1clip.originalDuration) := by
  refine ⟨?_, ?_, by norm_num [exC1clip]⟩
  · exact Reachable.trimClip _ "t1" "c1" (some 10) none
      (Reachable.addClipToTrack _ "t1" (clipData 10) "c1"
        (Reachable.addTrack _ TrackType.video "t1" Reachable.init))
  · norm_num [exC1, sOne, sTrack, initialState, clipData, addClipToTrack, addTrack,
      TrackType.label, exC1clip, trimClip, trimTrack, trimClipClip,
      updateTotalDuration, maxClipEnd, trackMaxEnd,
      getClip, getTrack, List.find?, List.foldl, Option.getD, max_def, min_def]

/-- C1 (amended): immediately after any `trimClip` call, the updated clip
satisfies `0 ≤ trimStart`, `trimStart + 0.1 ≤ trimEnd` (hence
`trimStart < trimEnd` and `trimEnd − trimStart ≥ 0.1`), and
`duration = trimEnd − trimStart`; the upper bound holds only in the weakened
form `trimEnd ≤ max originalDuration (trimStart + 0.1)`: whenever the clamped
`trimStart` leaves room for the minimum duration
(`trimStart + 0.1 ≤ originalDuration`), `trimEnd ≤ originalDuration` follows,
and `trimStart ≤ originalDuration` holds whenever `originalDuration ≥ 0`. -/
theorem C1_amended (s : TimelineState) (tid cid : String) (ts te : Option ℚ)
    (c : TimelineClip) (h : getClip (trimClip s tid cid ts te) tid cid = some c) :
    0 ≤ c.trimStart.getD 0 ∧
    c.trimStart.getD 0 + 1/10 ≤ c.trimEnd.getD 0 ∧
    c.duration = c.trimEnd.getD 0 - c.trimStart.getD 0 ∧
    c.trimEnd.getD 0 ≤ max c.originalDuration (c.trimStart.getD 0 + 1/10) ∧
    (c.trimStart.getD 0 + 1/10 ≤ c.originalDuration →
      c.trimEnd.getD 0 ≤ c.originalDuration) ∧
    (0 ≤ c.originalDuration → c.trimStart.getD 0 ≤ c.originalDuration) := by
  obtain ⟨c0, -, rfl⟩ := getClip_some_of_map s tid cid ts te c h
  exact trimClipClip_props c0 ts te

/-- C1 (witness): the amended invariant instantiated on the concrete trim of
`exC1`. -/
theorem C1_witness :
    0 ≤ exC1clip.trimStart.getD 0 ∧
    exC1clip.trimStart.getD 0 + 1/10 ≤ exC1clip.trimEnd.getD 0 ∧
    exC1clip.duration = exC1clip.trimEnd.getD 0 - exC1clip.trimStart.getD 0 ∧
    exC1clip.trimEnd.getD 0
      ≤ max exC1clip.originalDuration (exC1clip.trimStart.getD 0 + 1/10) ∧
    (exC1clip.trimStart.getD 0 + 1/10 ≤ exC1clip.originalDuration →
      exC1clip.trimEnd.getD 0 ≤ exC1clip.originalDuration) ∧
    (0 ≤ exC1clip.originalDuration →
      exC1clip.trimStart.getD 0 ≤ exC1clip.originalDuration) :=
  C1_amended sOne "t1" "c1" (some 10) none exC1clip
    (by norm_num [sOne, sTrack, initialState, clipData, addClipToTrack, addTrack,
      TrackType.label, exC1clip, trimClip, trimTrack, trimClipClip,
      updateTotalDuration, maxClipEnd, trackMaxEnd,
      getClip, getTrack, List.find?, List.foldl, Option.getD, max_def, min_def])

/-! ### C4 -/

/-- The clip expected from the C4 scenario trim. -/
def c4clip : TimelineClip :=
  { id := "c1", mediaId := "m1", name := "Clip", duration := 8,
    trimStart := some 2, trimEnd := some 10, originalDuration := 10, startTime := 2 }

/-- C4: `trimClip` shifts `startTime` by exactly `validTrimStart −
previousTrimStart` when the `trimStart` argument is supplied and leaves it
unchanged when only `trimEnd` is supplied; on the concrete clip
`{startTime 0, originalDuration 10, trimStart 0, trimEnd 10}`,
`trimClip (trimStart := 2)` yields
`{trimStart 2, trimEnd 10, duration 8, startTime 2}`. -/
theorem C4 (s : TimelineState) (tid cid : String) (a : ℚ) (te ts2 : Option ℚ)
    (c : TimelineClip) (h : getClip s tid cid = some c) :
    (getClip (trimClip s tid cid (some a) te) tid cid = some (trimClipClip c (some a) te) ∧
      (trimClipClip c (some a) te).startTime
        = c.startTime + (max 0 (min a c.originalDuration) - c.trimStart.getD 0)) ∧
    (getClip (trimClip s tid cid none ts2) tid cid = some (trimClipClip c none ts2) ∧
      (trimClipClip c none ts2).startTime = c.startTime) ∧
    getClip (trimClip sOne "t1" "c1" (some 2) none) "t1" "c1" = some c4clip := by
  refine ⟨⟨?_, rfl⟩, ⟨?_, rfl⟩, ?_⟩
  · rw [getClip_trimClip, h]; rfl
  · rw [getClip_trimClip, h]; rfl
  · norm_num [sOne, sTrack, initialState, clipData, addClipToTrack, addTrack,
      TrackType.label, c4clip, trimClip, trimTrack, trimClipClip,
      updateTotalDuration, maxClipEnd, trackMaxEnd,
      getClip, getTrack, List.find?, List.foldl, Option.getD, max_def, min_def]

/-- C4 (witness): the shift rule instantiated on the concrete clip of `sOne`
with `trimStart = 2`. -/
theorem C4_witness :
    (trimClipClip clip1 (some 2) none).startTime
      = clip1.startTime + (max 0 (min 2 clip1.originalDuration) - clip1.trimStart.getD 0) :=
  (C4 sOne "t1" "c1" 2 none none clip1
    (by norm_num [sOne, sTrack, initialState, clipData, addClipToTrack, addTrack,
      TrackType.label, clip1, getClip, getTrack, List.find?, List.foldl,
      max_def, min_def])).1.2

/-! ### C2 -/

theorem splitTrack_id (t : TimelineTrack) (cid : String) (st : ℚ) (id1 id2 : String) :
    (splitTrack t cid st id1 id2).id = t.id := by
  unfold splitTrack
  split
  · rfl
  · split
    · rfl
    · rfl

/-- The first half produced by splitting `c` at offset `st` into its trimmed
range. -/
def firstOf (c : TimelineClip) (st : ℚ) (id1 : String) : TimelineClip :=
  splitFirst c (c.trimStart.getD 0 + st) id1

/-- The second half produced by splitting `c` at offset `st` into its trimmed
range. -/
def secondOf (c : TimelineClip) (st : ℚ) (id1 id2 : String) : TimelineClip :=
  splitSecond c (c.trimStart.getD 0 + st) id2 (firstOf c st id1)

/-- The track produced by `splitClip` once the clip is located at index `i`:
the original clip replaced in place by the two halves. -/
def splitResultTrack (t : TimelineTrack) (i : Nat) (c : TimelineClip) (st : ℚ)
    (id1 id2 : String) : TimelineTrack :=
  { t with clips :=
      t.clips.take i ++ firstOf c st id1 :: secondOf c st id1 id2 :: t.clips.drop (i + 1) }

theorem splitTrack_eq (t : TimelineTrack) (cid : String) (st : ℚ) (id1 id2 : String)
    (i : Nat) (hidx : t.clips.findIdx? (fun c => c.id == cid) = some i)
    (c : TimelineClip) (hget : t.clips[i]? = some c) :
    splitTrack t cid st id1 id2 = splitResultTrack t i c st id1 id2 := by
  unfold splitTrack
  rw [hidx]
  dsimp only
  rw [hget]
  rfl

/-- C2: `splitClip` replaces the located clip, at its list position, by the
two freshly-identified halves: the first keeps `trimStart` and gets
`trimEnd = trimStart + splitTime`, the second gets
`trimStart = trimStart + splitTime` and keeps `trimEnd`; their durations sum
to the original duration, the two `[trimStart, trimEnd]` ranges tile the
original range sharing the single boundary point, the second's `startTime`
equals the first's `startTime` plus the first's duration, and the names get
suffixes `" (1)"`/`" (2)"`. -/
theorem C2 (s : TimelineState) (tid cid : String) (st : ℚ) (id1 id2 : String)
    (t : TimelineTrack) (ht : getTrack s tid = some t)
    (i : Nat) (hidx : t.clips.findIdx? (fun c => c.id == cid) = some i)
    (c : TimelineClip) (hget : t.clips[i]? = some c)
    (hD : c.duration = c.trimEnd.getD c.originalDuration - c.trimStart.getD 0)
    (h0 : 0 ≤ st) (h1 : st ≤ c.duration) :
    getTrack (splitClip s tid cid st id1 id2) tid
        = some (splitResultTrack t i c st id1 id2) ∧
    (firstOf c st id1).duration + (secondOf c st id1 id2).duration = c.duration ∧
    (firstOf c st id1).trimStart = c.trimStart ∧
    (firstOf c st id1).trimEnd = some (c.trimStart.getD 0 + st) ∧
    (secondOf c st id1 id2).trimStart = some (c.trimStart.getD 0 + st) ∧
    (secondOf c st id1 id2).trimEnd = c.trimEnd ∧
    (secondOf c st id1 id2).startTime
        = (firstOf c st id1).startTime + (firstOf c st id1).duration ∧
    (firstOf c st id1).id = id1 ∧
    (secondOf c st id1 id2).id = id2 ∧
    (firstOf c st id1).name = c.name ++ " (1)" ∧
    (secondOf c st id1 id2).name = c.name ++ " (2)" := by
  refine ⟨?_, ?_, rfl, rfl, rfl, rfl, rfl, rfl, rfl, rfl, rfl⟩
  · have hmap := getTrack_after_map s tid (fun tr => splitTrack tr cid st id1 id2)
      (fun tr => splitTrack_id tr cid st id1 id2) (splitClip s tid cid st id1 id2) rfl
    rw [hmap, ht, Option.map_some', splitTrack_eq t cid st id1 id2 i hidx c hget]
  · show (c.trimStart.getD 0 + st - c.trimStart.getD 0)
        + (c.trimEnd.getD c.originalDuration - (c.trimStart.getD 0 + st)) = c.duration
    rw [hD]; ring

/-- C2 (witness): splitting the concrete clip of `sOne` at `splitTime = 4`
produces the two expected abutting halves in place of the original clip. -/
theorem C2_witness :
    getTrack (splitClip sOne "t1" "c1" 4 "cs1" "cs2") "t1"
      = some (splitResultTrack (track1 [clip1]) 0 clip1 4 "cs1" "cs2") :=
  (C2 sOne "t1" "c1" 4 "cs1" "cs2" (track1 [clip1])
    (by norm_num [sOne, sTrack, initialState, clipData, addClipToTrack, addTrack,
      TrackType.label, clip1, track1, getTrack, List.find?, List.foldl,
      max_def, min_def, videoTrackName])
    0 (by rfl) clip1 (by rfl)
    (by norm_num [clip1]) (by norm_num) (by norm_num [clip1])).1

/-! ### C3 -/

/-- No track of `s` carries the id `tid`. -/
def noTrack (s : TimelineState) (tid : String) : Prop :=
  ∀ t ∈ s.tracks, (t.id == tid) = false

/-- No clip on any track of `s` carries the id `cid`. -/
def noClip (s : TimelineState) (cid : String) : Prop :=
  ∀ t ∈ s.tracks, ∀ c ∈ t.clips, (c.id == cid) = false

theorem trimTrack_eq_self (t : TimelineTrack) (cid : String) (ts te : Option ℚ)
    (h : ∀ c ∈ t.clips, (c.id == cid) = false) : trimTrack t cid ts te = t := by
  unfold trimTrack
  rw [map_if_eq_self _ _ _ (fun c hc hp => by rw [h c hc] at hp; cases hp)]

theorem splitTrack_eq_self (t : TimelineTrack) (cid : String) (st : ℚ) (id1 id2 : String)
    (h : ∀ c ∈ t.clips, (c.id == cid) = false) : splitTrack t cid st id1 id2 = t := by
  unfold splitTrack
  rw [findIdx?_none_of_all _ _ h]

theorem reorderTrack_eq_self (t : TimelineTrack) (cid : String) (n : Nat)
    (h : ∀ c ∈ t.clips, (c.id == cid) = false) : reorderTrack t cid n = t := by
  unfold reorderTrack
  rw [findIdx?_none_of_all _ _ h]

/-- A reachable one-clip state from which `moveClipToTrack` is called with a
destination track id that does not exist. -/
def exC3 : TimelineState := moveClipToTrack sOne "t1" "t2" "c1" none

/-- C3 (counterexample): the claim "operations on a non-existent id leave the
whole state unchanged" is false for `moveClipToTrack` with an existing source
clip and a missing destination: from `sOne` (one clip `"c1"` on `"t1"`),
`moveClipToTrack "t1" "t2" "c1"` removes the clip from `"t1"` and, since no
track matches `"t2"`, never re-inserts it — the clip is silently lost. -/
theorem C3_counterexample :
    Reachable exC3 ∧ exC3.tracks = [track1 []] ∧ exC3.tracks ≠ sOne.tracks := by
  refine ⟨?_, ?_, ?_⟩
  · exact Reachable.moveClipToTrack _ "t1" "t2" "c1" none
      (Reachable.addClipToTrack _ "t1" (clipData 10) "c1"
        (Reachable.addTrack _ TrackType.video "t1" Reachable.init))
  · norm_num [exC3, sOne, sTrack, initialState, clipData, addClipToTrack, addTrack,
      TrackType.label, moveClipToTrack, findClipToMove, updateTotalDuration,
      maxClipEnd, trackMaxEnd, track1, List.find?, List.foldl, List.filter,
      max_def, min_def, videoTrackName]
  · norm_num [exC3, sOne, sTrack, initialState, clipData, addClipToTrack, addTrack,
      TrackType.label, moveClipToTrack, findClipToMove, updateTotalDuration,
      maxClipEnd, trackMaxEnd, List.find?, List.foldl, List.filter,
      max_def, min_def]

/-- C3 (amended): operations given a `clipId` or `trackId` that does not occur
leave `tracks` (hence every track and clip) unchanged — `totalDuration` is
still recomputed by the trailing `updateTotalDuration` — with one exception:
`moveClipToTrack` and `updateClipStartTime` called with an existing source
clip but a non-existent destination `trackId` remove the clip from its source
track without inserting it anywhere (the clip is dropped).  No operation ever
raises an error (all are total functions). -/
theorem C3_amended (s : TimelineState) (fid tid cid : String) (idx : Option Nat)
    (v st : ℚ) (ts te : Option ℚ) (id1 id2 fresh : String) (d : ClipData) (n : Nat) :
    (findClipToMove s fid cid = none →
      (moveClipToTrack s fid tid cid idx).tracks = s.tracks) ∧
    (∀ c, findClipToMove s fid cid = some c → noTrack s tid →
      (moveClipToTrack s fid tid cid idx).tracks
        = s.tracks.map (fun tr =>
            if tr.id == fid
            then { tr with clips := tr.clips.filter (fun cl => !(cl.id == cid)) }
            else tr)) ∧
    (findClipToMove s fid cid = none →
      (updateClipStartTime s fid tid cid v).tracks = s.tracks) ∧
    (∀ c, findClipToMove s fid cid = some c → noTrack s tid →
      (updateClipStartTime s fid tid cid v).tracks
        = s.tracks.map (fun tr =>
            if tr.id == fid
            then { tr with clips := tr.clips.filter (fun cl => !(cl.id == cid)) }
            else tr)) ∧
    (noTrack s tid → (trimClip s tid cid ts te).tracks = s.tracks) ∧
    (noClip s cid → (trimClip s tid cid ts te).tracks = s.tracks) ∧
    (noClip s cid → (splitClip s tid cid st id1 id2).tracks = s.tracks) ∧
    (noClip s cid → (removeClipFromTrack s tid cid).tracks = s.tracks) ∧
    (noClip s cid → (reorderClipInTrack s tid cid n).tracks = s.tracks) ∧
    (noTrack s tid → (addClipToTrack s tid d fresh).tracks = s.tracks) ∧
    (noTrack s tid → (removeTrack s tid).tracks = s.tracks) := by
  refine ⟨?_, ?_, ?_, ?_, ?_, ?_, ?_, ?_, ?_, ?_, ?_⟩
  · intro h
    unfold moveClipToTrack
    rw [h]
    rfl
  · intro c hc hno
    unfold moveClipToTrack
    rw [hc]
    show List.map _ s.tracks = _
    refine List.map_congr_left ?_
    intro tr htr
    by_cases h1 : (tr.id == fid) = true
    · simp only [h1, if_true]
    · have h1' : (tr.id == fid) = false := by simpa using h1
      have h2 : (tr.id == tid) = false := hno tr htr
      simp only [h1', h2, Bool.false_eq_true, if_false]
  · intro h
    unfold updateClipStartTime
    rw [h]
    rfl
  · intro c hc hno
    obtain ⟨t0, hfind, -⟩ := Option.bind_eq_some.mp hc
    have ht0 := List.find?_some hfind
    have ht0mem : t0 ∈ s.tracks := List.mem_of_find?_eq_some hfind
    have hfidtid : (fid == tid) = false := by
      have : t0.id = fid := by simpa using ht0
      rw [← this]
      exact hno t0 ht0mem
    unfold updateClipStartTime
    rw [hc]
    show List.map _ s.tracks = _
    refine List.map_congr_left ?_
    intro tr htr
    by_cases h1 : (tr.id == fid) = true
    · simp only [h1, hfidtid, Bool.and_false, Bool.false_eq_true, if_false, if_true]
    · have h1' : (tr.id == fid) = false := by simpa using h1
      have h2 : (tr.id == tid) = false := hno tr htr
      simp only [h1', h2, Bool.false_and, Bool.false_eq_true, if_false]
  · intro hno
    show List.map _ s.tracks = _
    exact map_if_eq_self _ _ _ (fun t ht hp => by rw [hno t ht] at hp; cases hp)
  · intro hno
    show List.map _ s.tracks = _
    refine (map_if_eq_self _ _ _ ?_)
    intro t ht _
    exact trimTrack_eq_self t cid ts te (fun c hc => hno t ht c hc)
  · intro hno
    show List.map _ s.tracks = _
    refine (map_if_eq_self _ _ _ ?_)
    intro t ht _
    exact splitTrack_eq_self t cid st id1 id2 (fun c hc => hno t ht c hc)
  · intro hno
    show List.map _ s.tracks = _
    refine (map_if_eq_self _ _ _ ?_)
    intro t ht _
    have : t.clips.filter (fun cl => !(cl.id == cid)) = t.clips :=
      filter_ne_eq_self _ _ (fun c hc => hno t ht c hc)
    rw [this]
  · intro hno
    show List.map _ s.tracks = _
    refine (map_if_eq_self _ _ _ ?_)
    intro t ht _
    exact reorderTrack_eq_self t cid n (fun c hc => hno t ht c hc)
  · intro hno
    show List.map _ s.tracks = _
    exact map_if_eq_self _ _ _ (fun t ht hp => by rw [hno t ht] at hp; cases hp)
  · intro hno
    show List.filter _ s.tracks = _
    exact filter_ne_eq_self _ _ (fun t ht => hno t ht)

/-- C3 (witness): the amended statement applied to `sOne` with the existing
clip `"c1"` on `"t1"` and the missing destination `"t2"`: the result is
exactly `sOne`'s tracks with `"c1"` filtered out of `"t1"`. -/
theorem C3_witness :
    (moveClipToTrack sOne "t1" "t2" "c1" none).tracks
      = sOne.tracks.map (fun tr =>
          if tr.id == "t1"
          then { tr with clips := tr.clips.filter (fun cl => !(cl.id == "c1")) }
          else tr) :=
  ((C3_amended sOne "t1" "t2" "c1" none 0 0 none none "x" "y" "z" (clipData 1) 0).2.1)
    clip1
    (by norm_num [sOne, sTrack, initialState, clipData, addClipToTrack, addTrack,
      TrackType.label, clip1, findClipToMove, List.find?, List.foldl,
      max_def, min_def])
    (by
      intro t ht
      norm_num [sOne, sTrack, initialState, clipData, addClipToTrack, addTrack,
        TrackType.label, updateTotalDuration, maxClipEnd, trackMaxEnd,
        List.find?, List.foldl, List.mem_singleton, max_def, min_def] at ht
      rw [ht]
      rfl)

/-! ### C5 -/

/-- The clip `addClipToTrack` builds when the target track is found:
`trimStart = 0`, `trimEnd = duration`, `originalDuration = duration`, and the
placement `startTime` is the fold `max(existing clip end times, 0)` — the
caller-supplied `d.startTime` hint is not consulted. -/
def addedClip (t : TimelineTrack) (d : ClipData) (fid : String) : TimelineClip :=
  { id := fid
    mediaId := d.mediaId
    name := d.name
    duration := d.duration
    trimStart := some 0
    trimEnd := some d.duration
    originalDuration := d.duration
    startTime := t.clips.foldl (fun m clip => max m (clip.startTime + clip.duration)) 0 }

theorem getTrack_addClip (s : TimelineState) (tid : String) (d : ClipData) (fid : String)
    (t : TimelineTrack) (ht : getTrack s tid = some t) :
    getTrack (addClipToTrack s tid d fid) tid
      = some { t with clips := t.clips ++ [addedClip t d fid] } := by
  have hfind : s.tracks.find? (fun tr => tr.id == tid) = some t := ht
  have hs : (addClipToTrack s tid d fid).tracks
      = s.tracks.map (fun tr =>
          if tr.id == tid then { tr with clips := tr.clips ++ [addedClip t d fid] } else tr) := by
    unfold addClipToTrack
    rw [hfind]
    rfl
  rw [getTrack_after_map s tid
      (fun tr => { tr with clips := tr.clips ++ [addedClip t d fid] })
      (fun tr => rfl) _ hs, ht, Option.map_some']

/-- A reachable state whose single track holds one clip ending at a negative
time (`startTime = −5`, `duration = 2`), then a second clip is appended. -/
def exC5 : TimelineState :=
  addClipToTrack (updateClipStartTime sShort "t1" "t1" "c1" (-5)) "t1" (clipData 3) "c2"

/-- C5 (counterexample): the claim "the appended clip's `startTime` equals the
maximum over the track's existing clips of `startTime + duration`" is false:
in a reachable state whose only existing clip ends at `−3`, the code places
the new clip at `0` (the `reduce` accumulator starts at `0`, so the placement
is `max 0 (max of clip ends)`, not the plain maximum). -/
theorem C5_counterexample :
    Reachable exC5 ∧
    (getClip exC5 "t1" "c1").map (fun c => c.startTime + c.duration) = some (-3) ∧
    (getClip exC5 "t1" "c2").map (fun c => c.startTime) = some 0 ∧
    (0 : ℚ) ≠ -3 := by
  refine ⟨?_, ?_, ?_, by norm_num⟩
  · exact Reachable.addClipToTrack _ "t1" (clipData 3) "c2"
      (Reachable.updateClipStartTime _ "t1" "t1" "c1" (-5)
        (Reachable.addClipToTrack _ "t1" (clipData 2) "c1"
          (Reachable.addTrack _ TrackType.video "t1" Reachable.init)))
  · norm_num [exC5, sShort, sTrack, initialState, clipData, addClipToTrack, addTrack,
      TrackType.label, updateClipStartTime, findClipToMove, updateTotalDuration,
      maxClipEnd, trackMaxEnd, getClip, getTrack, List.find?, List.foldl,
      max_def, min_def]
  · norm_num [exC5, sShort, sTrack, initialState, clipData, addClipToTrack, addTrack,
      TrackType.label, updateClipStartTime, findClipToMove, updateTotalDuration,
      maxClipEnd, trackMaxEnd, getClip, getTrack, List.find?, List.foldl,
      max_def, min_def]
    exact ⟨_, rfl, rfl⟩

/-- The state after appending clips of durations 5 and 3 (with nonzero
`startTime` hints) to the empty track of `sTrack`. -/
def sAdd2 : TimelineState :=
  addClipToTrack (addClipToTrack sTrack "t1" (clipData 5) "cA") "t1" (clipData 3) "cB"

/-- C5 (amended): for an existing track, `addClipToTrack` appends a clip with
`trimStart = 0`, `trimEnd = duration = originalDuration`, and
`startTime = max(0, maximum over existing clips of startTime + duration)`
(the fold starts at 0, so the placement never goes below 0 even when every
existing clip ends at a negative time), regardless of the caller-supplied
`startTime` hint; two consecutive adds of durations 5 and 3 on an empty track
land at 0 and 5; for a non-existent `trackId` the tracks are left unchanged
(`totalDuration` is still recomputed). -/
theorem C5_amended (s : TimelineState) (tid : String) (d : ClipData) (fid : String) :
    (∀ t, getTrack s tid = some t →
      getTrack (addClipToTrack s tid d fid) tid
          = some { t with clips := t.clips ++ [addedClip t d fid] } ∧
      (addedClip t d fid).startTime
          = t.clips.foldl (fun m clip => max m (clip.startTime + clip.duration)) 0 ∧
      0 ≤ (addedClip t d fid).startTime ∧
      (addedClip t d fid).trimStart = some 0 ∧
      (addedClip t d fid).trimEnd = some d.duration ∧
      (addedClip t d fid).originalDuration = d.duration ∧
      (addedClip t d fid).duration = d.duration) ∧
    (getTrack s tid = none → (addClipToTrack s tid d fid).tracks = s.tracks) ∧
    (getClip sAdd2 "t1" "cA").map (fun c => c.startTime) = some 0 ∧
    (getClip sAdd2 "t1" "cB").map (fun c => c.startTime) = some 5 := by
  refine ⟨?_, ?_, ?_, ?_⟩
  · intro t ht
    exact ⟨getTrack_addClip s tid d fid t ht, rfl, clips_foldl_le_init t.clips 0,
      rfl, rfl, rfl, rfl⟩
  · intro hnone
    have hfind : s.tracks.find? (fun tr => tr.id == tid) = none := hnone
    have hall : ∀ tr ∈ s.tracks, (tr.id == tid) = false := by
      intro tr htr
      have := List.find?_eq_none.mp hfind tr htr
      simpa using this
    unfold addClipToTrack
    rw [hfind]
    show List.map _ s.tracks = _
    exact map_if_eq_self _ _ _ (fun tr htr hp => by rw [hall tr htr] at hp; cases hp)
  · norm_num [sAdd2, sTrack, initialState, clipData, addClipToTrack, addTrack,
      TrackType.label, updateTotalDuration, maxClipEnd, trackMaxEnd,
      getClip, getTrack, List.find?, List.foldl, max_def, min_def]
  · norm_num [sAdd2, sTrack, initialState, clipData, addClipToTrack, addTrack,
      TrackType.label, updateTotalDuration, maxClipEnd, trackMaxEnd,
      getClip, getTrack, List.find?, List.foldl, max_def, min_def]
    exact ⟨_, rfl, rfl⟩

/-- C5 (witness): appending to the empty `"t1"` track of `sTrack` yields the
track with exactly the new zero-trim clip appended. -/
theorem C5_witness :
    getTrack (addClipToTrack sTrack "t1" (clipData 5) "cA") "t1"
      = some (track1 ([] ++ [addedClip (track1 []) (clipData 5) "cA"])) :=
  ((C5_amended sTrack "t1" (clipData 5) "cA").1 (track1 [])
    (by norm_num [sTrack, initialState, addTrack, TrackType.label, getTrack,
      track1, List.find?, videoTrackName])).1

/-! ### C6 -/

/-- The duration-floor invariant of the spec: `totalDuration ≥ 300` and no
clip ends after `totalDuration`. -/
def stateBound (s : TimelineState) : Prop :=
  300 ≤ s.totalDuration ∧
    ∀ t ∈ s.tracks, ∀ c ∈ t.clips, c.startTime + c.duration ≤ s.totalDuration

/-- C6 (counterexample): the claim "`totalDuration ≥ 300` in every reachable
state, in particular in the initial state and after `addTrack`" is false: the
store is created with `totalDuration = 0`, and `addTrack` (unlike the clip
operations) never calls `updateTotalDuration`, so the floor is not yet
enforced after `addTrack` on a fresh store. -/
theorem C6_counterexample :
    Reachable sTrack ∧ initialState.totalDuration = 0 ∧
      sTrack.totalDuration = 0 ∧ ¬ (300 ≤ sTrack.totalDuration) := by
  refine ⟨Reachable.addTrack _ TrackType.video "t1" Reachable.init, rfl, ?_, ?_⟩
  · norm_num [sTrack, initialState, addTrack]
  · norm_num [sTrack, initialState, addTrack]

/-- C6 (amended): every operation that ends with `updateTotalDuration` (all
clip-level structural mutations) re-establishes `totalDuration =
max(maxClipEnd, 300)`, hence `totalDuration ≥ 300` and `totalDuration ≥
startTime + duration` for every clip on every track; but the initial state has
`totalDuration = 0`, and `addTrack`/`removeTrack` leave `totalDuration`
untouched, so the floor does not hold in the initial state nor after
`addTrack` on a fresh store. -/
theorem C6_amended (s : TimelineState) (tid cid fid id1 id2 : String) (d : ClipData)
    (ts te : Option ℚ) (st v : ℚ) (idx : Option Nat) (n : Nat) (ty : TrackType) :
    stateBound (updateTotalDuration s) ∧
    stateBound (addClipToTrack s tid d fid) ∧
    stateBound (removeClipFromTrack s tid cid) ∧
    stateBound (moveClipToTrack s fid tid cid idx) ∧
    stateBound (reorderClipInTrack s tid cid n) ∧
    stateBound (trimClip s tid cid ts te) ∧
    stateBound (splitClip s tid cid st id1 id2) ∧
    stateBound (updateClipStartTime s fid tid cid v) ∧
    (addTrack s ty fid).totalDuration = s.totalDuration ∧
    (removeTrack s tid).totalDuration = s.totalDuration ∧
    initialState.totalDuration = 0 :=
  ⟨updateTotalDuration_bound s, updateTotalDuration_bound _, updateTotalDuration_bound _,
    updateTotalDuration_bound _, updateTotalDuration_bound _, updateTotalDuration_bound _,
    updateTotalDuration_bound _, updateTotalDuration_bound _, rfl, rfl, rfl⟩

/-- C6 (witness): the floor holds concretely right after the first
recomputation on the fresh store. -/
theorem C6_witness :
    300 ≤ (updateTotalDuration initialState).totalDuration :=
  ((C6_amended initialState "t" "c" "f" "a" "b" (clipData 1) none none 0 0 none 0
    TrackType.video).1).1

/-! ### C7 -/

theorem getClip_updateSame (s : TimelineState) (fid cid : String) (v : ℚ)
    (c : TimelineClip) (h : findClipToMove s fid cid = some c) :
    getClip (updateClipStartTime s fid fid cid v) fid cid
      = some { c with startTime := v } := by
  obtain ⟨t0, hfind, hclip⟩ := Option.bind_eq_some.mp h
  have hcid := List.find?_some hclip
  have hs : (updateClipStartTime s fid fid cid v).tracks
      = s.tracks.map (fun tr =>
          if tr.id == fid
          then { tr with clips := tr.clips.map (fun cl =>
              if cl.id == cid then { c with startTime := v } else cl) }
          else tr) := by
    unfold updateClipStartTime
    rw [h]
    show List.map _ s.tracks = _
    refine List.map_congr_left ?_
    intro tr htr
    by_cases h1 : (tr.id == fid) = true
    · simp only [h1, beq_self_eq_true, Bool.and_true, if_true]
    · have h1' : (tr.id == fid) = false := by simpa using h1
      simp only [h1', Bool.false_and, Bool.false_eq_true, if_false]
  unfold getClip
  rw [getTrack_after_map s fid
      (fun tr => { tr with clips := tr.clips.map (fun cl =>
        if cl.id == cid then { c with startTime := v } else cl) })
      (fun tr => rfl) _ hs]
  rw [show getTrack s fid = some t0 from hfind, Option.map_some', Option.some_bind]
  rw [find_replace (fun cl : TimelineClip => cl.id == cid)
      (fun _ => { c with startTime := v }) t0.clips (fun cl hcl => hcid),
    hclip, Option.map_some']

/-- A reachable state in which the clip has been dragged to `startTime = −5`. -/
def exC7 : TimelineState := updateClipStartTime sOne "t1" "t1" "c1" (-5)

/-- C7 (counterexample): the claim "`startTime ≥ 0` for every clip in every
reachable state" is false: `updateClipStartTime` writes the caller's
`newStartTime` without clamping, so dragging the clip of `sOne` to `−5`
yields a reachable state whose clip has `startTime = −5 < 0`. -/
theorem C7_counterexample :
    Reachable exC7 ∧
    (getClip exC7 "t1" "c1").map (fun c => c.startTime) = some (-5) ∧
    ¬ ((0 : ℚ) ≤ -5) := by
  refine ⟨?_, ?_, by norm_num⟩
  · exact Reachable.updateClipStartTime _ "t1" "t1" "c1" (-5)
      (Reachable.addClipToTrack _ "t1" (clipData 10) "c1"
        (Reachable.addTrack _ TrackType.video "t1" Reachable.init))
  · norm_num [exC7, sOne, sTrack, initialState, clipData, addClipToTrack, addTrack,
      TrackType.label, updateClipStartTime, findClipToMove, updateTotalDuration,
      maxClipEnd, trackMaxEnd, getClip, getTrack, List.find?, List.foldl,
      max_def, min_def]

/-- C7 (amended): clip `startTime` is **not** an invariant: a same-track
`updateClipStartTime` overwrites the clip's `startTime` with exactly the
supplied value, clamping nothing (so negative positions are reachable); only
newly created clips are guaranteed `startTime ≥ 0`, since `addClipToTrack`
places them at the fold `max(existing ends, 0)`. -/
theorem C7_amended (s : TimelineState) (fid cid : String) (v : ℚ) (c : TimelineClip)
    (t : TimelineTrack) (d : ClipData) (fid2 : String) :
    (findClipToMove s fid cid = some c →
      getClip (updateClipStartTime s fid fid cid v) fid cid
        = some { c with startTime := v }) ∧
    0 ≤ (addedClip t d fid2).startTime := by
  exact ⟨fun h => getClip_updateSame s fid cid v c h, clips_foldl_le_init t.clips 0⟩

/-- C7 (witness): dragging the concrete clip of `sOne` to `−5` lands exactly
at `−5`. -/
theorem C7_witness :
    getClip (updateClipStartTime sOne "t1" "t1" "c1" (-5)) "t1" "c1"
      = some { clip1 with startTime := -5 } :=
  (C7_amended sOne "t1" "c1" (-5) clip1 (track1 []) (clipData 1) "z").1
    (by norm_num [sOne, sTrack, initialState, clipData, addClipToTrack, addTrack,
      TrackType.label, clip1, findClipToMove, List.find?, List.foldl,
      max_def, min_def])

/-! ### C8 -/

/-- C8: `setPlayheadPosition` clamps the playhead to `max 0 position`; when
the clamped position lands strictly within 30 seconds of `totalDuration`
(`totalDuration − 30 < newPosition`) it sets `totalDuration =
max (totalDuration + 60) (newPosition + 60)`, and otherwise leaves
`totalDuration` unchanged; in particular from `totalDuration = 300`,
`setPlayheadPosition 290` leaves `totalDuration ≥ 350`. -/
theorem C8 (s : TimelineState) (position : ℚ) :
    (setPlayheadPosition s position).playheadPosition = max 0 position ∧
    0 ≤ (setPlayheadPosition s position).playheadPosition ∧
    (s.totalDuration - 30 < max 0 position →
      (setPlayheadPosition s position).totalDuration
        = max (s.totalDuration + 60) (max 0 position + 60)) ∧
    (¬ (s.totalDuration - 30 < max 0 position) →
      (setPlayheadPosition s position).totalDuration = s.totalDuration) ∧
    (s.totalDuration = 300 → 350 ≤ (setPlayheadPosition s 290).totalDuration) := by
  have hscen : s.totalDuration = 300 → 350 ≤ (setPlayheadPosition s 290).totalDuration := by
    intro h300
    unfold setPlayheadPosition
    rw [h300]
    norm_num [max_def]
  unfold setPlayheadPosition
  by_cases hcond : s.totalDuration - 30 < max 0 position
  · rw [if_pos hcond]
    exact ⟨rfl, le_max_left _ _, fun _ => rfl, fun hn => absurd hcond hn, hscen⟩
  · rw [if_neg hcond]
    exact ⟨rfl, le_max_left _ _, fun hcc => absurd hcc hcond, fun _ => rfl, hscen⟩

/-- C8 (witness): the auto-extension instantiated at `totalDuration = 300`
(the state right after the first recomputation on a fresh store),
`position = 290`. -/
theorem C8_witness :
    350 ≤ (setPlayheadPosition (updateTotalDuration initialState) 290).totalDuration :=
  (C8 (updateTotalDuration initialState) 290).2.2.2.2
    (by norm_num [updateTotalDuration, maxClipEnd, initialState, List.foldl, max_def])

/-! ### C9 -/

/-- A reachable state violating the scroll bound: scroll was set to 900 while
`totalDuration = 1000`, then the only clip was removed, shrinking
`totalDuration` to 300 with `viewportDuration = 60` — but `scrollPosition`
stays at 900. -/
def exC9 : TimelineState :=
  removeClipFromTrack (setScrollPosition (addClipToTrack sTrack "t1" (clipData 1000) "c1") 900)
    "t1" "c1"

/-- C9 (counterexample): the claim "`scrollPosition ∈ [0, max(0,
totalDuration − viewportDuration)]` in every reachable state, surviving
operations that shrink `totalDuration`" is false: only `setScrollPosition`
clamps; removing the longest clip recomputes `totalDuration` without
re-clamping the stored scroll, leaving `scrollPosition = 900 > 240`. -/
theorem C9_counterexample :
    Reachable exC9 ∧ exC9.scrollPosition = 900 ∧
    max 0 (exC9.totalDuration - exC9.viewportDuration) = 240 ∧
    ¬ (exC9.scrollPosition ≤ max 0 (exC9.totalDuration - exC9.viewportDuration)) := by
  refine ⟨?_, ?_, ?_, ?_⟩
  · exact Reachable.removeClipFromTrack _ "t1" "c1"
      (Reachable.setScrollPosition _ 900
        (Reachable.addClipToTrack _ "t1" (clipData 1000) "c1"
          (Reachable.addTrack _ TrackType.video "t1" Reachable.init)))
  all_goals
    norm_num [exC9, sTrack, initialState, clipData, addClipToTrack, addTrack,
      TrackType.label, setScrollPosition, removeClipFromTrack, updateTotalDuration,
      maxClipEnd, trackMaxEnd, List.find?, List.foldl, List.filter,
      max_def, min_def]

/-- C9 (amended): `setScrollPosition` itself does clamp into `[0, max(0,
totalDuration − viewportDuration)]` and is idempotent (two calls with the same
argument produce the same state as one); but the bound is enforced only at
set time — later operations that shrink `totalDuration` or enlarge
`viewportDuration` do not re-clamp the stored `scrollPosition`. -/
theorem C9_amended (s : TimelineState) (x : ℚ) :
    0 ≤ (setScrollPosition s x).scrollPosition ∧
    (setScrollPosition s x).scrollPosition
      ≤ max 0 (s.totalDuration - s.viewportDuration) ∧
    (setScrollPosition s x).scrollPosition
      = max 0 (min x (max 0 (s.totalDuration - s.viewportDuration))) ∧
    setScrollPosition (setScrollPosition s x) x = setScrollPosition s x := by
  refine ⟨le_max_left _ _, ?_, rfl, rfl⟩
  exact max_le (le_max_left _ _) (min_le_right _ _)

/-! ### C10 -/

theorem findActive_some (media : List MediaItem) (pos : ℚ) :
    ∀ (clips : List TimelineClip) (c : TimelineClip) (m : MediaItem),
      findActiveInClips media pos clips = some (c, m) →
      c ∈ clips ∧ c.startTime ≤ pos ∧ pos < c.startTime + c.duration ∧
        media.find? (fun item => item.id == c.mediaId) = some m := by
  intro clips
  induction clips with
  | nil => intro c m h; cases h
  | cons a rest ih =>
    intro c m h
    simp only [findActiveInClips] at h
    by_cases hcond : a.startTime ≤ pos ∧ pos < a.startTime + a.duration
    · rw [if_pos hcond] at h
      cases hm : media.find? (fun item => item.id == a.mediaId) with
      | some mi =>
        rw [hm] at h
        obtain ⟨rfl, rfl⟩ : a = c ∧ mi = m := by
          have := Option.some.inj h
          exact ⟨congrArg Prod.fst this, congrArg Prod.snd this⟩
        exact ⟨List.mem_cons_self _ _, hcond.1, hcond.2, hm⟩
      | none =>
        rw [hm] at h
        obtain ⟨hmem, h1, h2, h3⟩ := ih c m h
        exact ⟨List.mem_cons_of_mem _ hmem, h1, h2, h3⟩
    · rw [if_neg hcond] at h
      obtain ⟨hmem, h1, h2, h3⟩ := ih c m h
      exact ⟨List.mem_cons_of_mem _ hmem, h1, h2, h3⟩

theorem findActive_none (media : List MediaItem) (pos : ℚ) :
    ∀ clips : List TimelineClip,
      (∀ c ∈ clips, c.startTime ≤ pos → pos < c.startTime + c.duration →
        media.find? (fun item => item.id == c.mediaId) = none) →
      findActiveInClips media pos clips = none := by
  intro clips
  induction clips with
  | nil => intro _; rfl
  | cons a rest ih =>
    intro h
    simp only [findActiveInClips]
    by_cases hcond : a.startTime ≤ pos ∧ pos < a.startTime + a.duration
    · rw [if_pos hcond, h a (List.mem_cons_self _ _) hcond.1 hcond.2]
      exact ih (fun c hc => h c (List.mem_cons_of_mem _ hc))
    · rw [if_neg hcond]
      exact ih (fun c hc => h c (List.mem_cons_of_mem _ hc))

theorem findActive_unique (media : List MediaItem) (pos : ℚ) (c : TimelineClip)
    (m : MediaItem) (h1 : c.startTime ≤ pos) (h2 : pos < c.startTime + c.duration)
    (hm : media.find? (fun item => item.id == c.mediaId) = some m) :
    ∀ clips : List TimelineClip, c ∈ clips →
      (∀ x ∈ clips, x.startTime ≤ pos → pos < x.startTime + x.duration → x = c) →
      findActiveInClips media pos clips = some (c, m) := by
  intro clips
  induction clips with
  | nil => intro hc _; cases hc
  | cons a rest ih =>
    intro hc huniq
    simp only [findActiveInClips]
    by_cases hcond : a.startTime ≤ pos ∧ pos < a.startTime + a.duration
    · have ha : a = c := huniq a (List.mem_cons_self _ _) hcond.1 hcond.2
      subst ha
      rw [if_pos hcond, hm]
    · rw [if_neg hcond]
      have hc' : c ∈ rest := by
        rcases List.mem_cons.mp hc with rfl | hr
        · exact absurd ⟨h1, h2⟩ hcond
        · exact hr
      exact ih hc' (fun x hx => huniq x (List.mem_cons_of_mem _ hx))

/-- The boolean test the resolver effectively applies to one clip: the
interval `[startTime, startTime + duration)` contains the playhead AND the
referenced media item still exists in the registry. -/
def timeMediaMatch (media : List MediaItem) (pos : ℚ) (cl : TimelineClip) : Bool :=
  (decide (cl.startTime ≤ pos) && decide (pos < cl.startTime + cl.duration))
    && (media.find? (fun item => item.id == cl.mediaId)).isSome

/-- Written from the spec's words, not from the source ("scan tracks in
order; within each track scan clips in list order; select the first clip
where `clipStart ≤ playheadPosition < clipStart + clipDuration` AND whose
referenced media item still exists"): the first clip of the
track-then-list-order flattening that passes `timeMediaMatch`, paired with
its media item.  Compared against `getActiveClip` below. -/
def firstMatchSpec (tracks : List TimelineTrack) (media : List MediaItem) (pos : ℚ) :
    Option (TimelineClip × MediaItem) :=
  ((tracks.map (fun t => t.clips)).flatten.find? (timeMediaMatch media pos)).bind
    (fun cl => (media.find? (fun item => item.id == cl.mediaId)).map (fun m => (cl, m)))

theorem find?_append_some {α : Type _} (p : α → Bool) (l₁ l₂ : List α) (a : α)
    (h : l₁.find? p = some a) : (l₁ ++ l₂).find? p = some a := by
  rw [List.find?_append, h]
  rfl

theorem find?_append_none {α : Type _} (p : α → Bool) (l₁ l₂ : List α)
    (h : l₁.find? p = none) : (l₁ ++ l₂).find? p = l₂.find? p := by
  rw [List.find?_append, h, Option.none_or]

theorem findActive_eq_find (media : List MediaItem) (pos : ℚ) :
    ∀ clips : List TimelineClip,
      findActiveInClips media pos clips
        = (clips.find? (timeMediaMatch media pos)).bind
            (fun cl => (media.find? (fun item => item.id == cl.mediaId)).map
              (fun m => (cl, m))) := by
  intro clips
  induction clips with
  | nil => rfl
  | cons a rest ih =>
    simp only [findActiveInClips]
    by_cases hcond : a.startTime ≤ pos ∧ pos < a.startTime + a.duration
    · rw [if_pos hcond]
      cases hm : media.find? (fun item => item.id == a.mediaId) with
      | some mi =>
        have hp : timeMediaMatch media pos a = true := by
          simp [timeMediaMatch, hm, hcond.1, hcond.2]
        rw [List.find?_cons_of_pos _ hp, Option.some_bind, hm, Option.map_some']
      | none =>
        have hp : timeMediaMatch media pos a = false := by
          simp [timeMediaMatch, hm]
        rw [List.find?_cons_of_neg _ (by simp [hp])]
        exact ih
    · rw [if_neg hcond]
      have hp : timeMediaMatch media pos a = false := by
        rcases not_and_or.mp hcond with h | h
        · simp [timeMediaMatch, decide_eq_false h]
        · simp [timeMediaMatch, decide_eq_false h]
      rw [List.find?_cons_of_neg _ (by simp [hp]), ih]

theorem getActive_eq_first (media : List MediaItem) (pos : ℚ) :
    ∀ tracks : List TimelineTrack,
      getActiveClip tracks media pos = firstMatchSpec tracks media pos := by
  intro tracks
  induction tracks with
  | nil => rfl
  | cons tr rest ih =>
    show (match findActiveInClips media pos tr.clips with
          | some r => some r
          | none => getActiveClip rest media pos) = _
    rw [findActive_eq_find media pos tr.clips]
    unfold firstMatchSpec
    simp only [List.map_cons, List.flatten_cons]
    cases hf : tr.clips.find? (timeMediaMatch media pos) with
    | some cl =>
      have htm := List.find?_some hf
      have hsome : (media.find? (fun item => item.id == cl.mediaId)).isSome = true := by
        have h := htm
        simp only [timeMediaMatch, Bool.and_eq_true] at h
        exact h.2
      obtain ⟨m0, hm0⟩ := Option.isSome_iff_exists.mp hsome
      rw [find?_append_some _ _ _ _ hf, Option.some_bind, hm0, Option.map_some']
    | none =>
      rw [find?_append_none _ _ _ hf, Option.none_bind]
      exact ih

/-- A clip over `[0, 10)` whose media id `"mA"` may or may not resolve. -/
def clipA : TimelineClip :=
  { id := "ca", mediaId := "mA", name := "A", duration := 10,
    trimStart := some 0, trimEnd := some 10, originalDuration := 10, startTime := 0 }

/-- A clip over the same interval `[0, 10)` referencing media `"m1"`. -/
def clipB : TimelineClip :=
  { id := "cb", mediaId := "m1", name := "B", duration := 10,
    trimStart := some 0, trimEnd := some 10, originalDuration := 10, startTime := 0 }

/-- The media item with id `"mA"` referenced by `clipA`. -/
def miA : MediaItem :=
  { id := "mA", type := MediaType.video, url := "u", duration := 10,
    thumbnailUrl := none, name := "MA" }

/-- The media item with id `"m1"` referenced by the scenario clips. -/
def mi1 : MediaItem :=
  { id := "m1", type := MediaType.video, url := "u", duration := 10,
    thumbnailUrl := none, name := "M" }

/-- C10: the active-clip resolver is exactly first-match in
track-then-list scan order: `getActiveClip` equals the spec-side
`firstMatchSpec` (the first clip of the track-order flattening whose interval
`[startTime, startTime + duration)` contains the playhead AND whose `mediaId`
still resolves, paired with its media item) — so time-matching clips with
absent media are skipped and among several time-matching clips the earliest
in scan order wins; it returns `none` when no clip satisfies both conditions;
a unique time-matching clip with present media is returned; and concretely,
with two clips over the same interval, the first is skipped and the second
returned when only the second's media resolves, while the first wins when
both resolve. -/
theorem C10 (tracks : List TimelineTrack) (media : List MediaItem) (pos : ℚ)
    (c : TimelineClip) (m : MediaItem) (t : TimelineTrack) :
    getActiveClip tracks media pos = firstMatchSpec tracks media pos ∧
    (getActiveClip tracks media pos = some (c, m) →
      (∃ tr ∈ tracks, c ∈ tr.clips) ∧ c.startTime ≤ pos ∧
        pos < c.startTime + c.duration ∧
        media.find? (fun item => item.id == c.mediaId) = some m) ∧
    ((∀ tr ∈ tracks, ∀ cl ∈ tr.clips, cl.startTime ≤ pos →
        pos < cl.startTime + cl.duration →
        media.find? (fun item => item.id == cl.mediaId) = none) →
      getActiveClip tracks media pos = none) ∧
    (t ∈ tracks → c ∈ t.clips → c.startTime ≤ pos → pos < c.startTime + c.duration →
      media.find? (fun item => item.id == c.mediaId) = some m →
      (∀ tr ∈ tracks, ∀ cl ∈ tr.clips, cl.startTime ≤ pos →
        pos < cl.startTime + cl.duration → cl = c) →
      getActiveClip tracks media pos = some (c, m)) ∧
    getActiveClip [track1 [clipA, clipB]] [mi1] 3 = some (clipB, mi1) ∧
    getActiveClip [track1 [clipA, clipB]] [miA, mi1] 3 = some (clipA, miA) := by
  refine ⟨getActive_eq_first media pos tracks, ?_, ?_, ?_, ?_, ?_⟩
  · intro h
    induction tracks with
    | nil => cases h
    | cons tr rest ih =>
      simp only [getActiveClip] at h
      cases hf : findActiveInClips media pos tr.clips with
      | some r =>
        rw [hf] at h
        obtain rfl : r = (c, m) := Option.some.inj h
        obtain ⟨hmem, h1, h2, h3⟩ := findActive_some media pos tr.clips c m hf
        exact ⟨⟨tr, List.mem_cons_self _ _, hmem⟩, h1, h2, h3⟩
      | none =>
        rw [hf] at h
        obtain ⟨⟨t', ht', hmem⟩, h1, h2, h3⟩ := ih h
        exact ⟨⟨t', List.mem_cons_of_mem _ ht', hmem⟩, h1, h2, h3⟩
  · intro h
    induction tracks with
    | nil => rfl
    | cons tr rest ih =>
      simp only [getActiveClip]
      rw [findActive_none media pos tr.clips
        (fun cl hcl => h tr (List.mem_cons_self _ _) cl hcl)]
      exact ih (fun tr' htr' => h tr' (List.mem_cons_of_mem _ htr'))
  · intro ht hc h1 h2 hm huniq
    induction tracks with
    | nil => cases ht
    | cons tr rest ih =>
      simp only [getActiveClip]
      by_cases hhit : ∃ x ∈ tr.clips, x.startTime ≤ pos ∧ pos < x.startTime + x.duration
      · obtain ⟨x, hx, hx1, hx2⟩ := hhit
        have hxc : x = c := huniq tr (List.mem_cons_self _ _) x hx hx1 hx2
        subst hxc
        rw [findActive_unique media pos x m h1 h2 hm tr.clips hx
          (fun y hy => huniq tr (List.mem_cons_self _ _) y hy)]
      · have hnone : findActiveInClips media pos tr.clips = none := by
          refine findActive_none media pos tr.clips ?_
          intro cl hcl hcl1 hcl2
          exact absurd ⟨cl, hcl, hcl1, hcl2⟩ hhit
        rw [hnone]
        have ht' : t ∈ rest := by
          rcases List.mem_cons.mp ht with rfl | hr
          · exact absurd ⟨c, hc, h1, h2⟩ hhit
          · exact hr
        exact ih ht' (fun tr' htr' => huniq tr' (List.mem_cons_of_mem _ htr'))
  · have e1 : ("m1" == "mA") = false := rfl
    norm_num [getActiveClip, findActiveInClips, clipA, clipB, mi1, miA, track1,
      List.find?, e1]
  · have e1 : ("m1" == "mA") = false := rfl
    norm_num [getActiveClip, findActiveInClips, clipA, clipB, mi1, miA, track1,
      List.find?, e1]

/-- C10 (witness): with one track holding the single clip `[0, 10)` and its
media present, the resolver at playhead 3 returns exactly that clip and its
media item. -/
theorem C10_witness : getActiveClip [track1 [clip1]] [mi1] 3 = some (clip1, mi1) :=
  ((C10 [track1 [clip1]] [mi1] 3 clip1 mi1 (track1 [clip1])).2.2.2.1)
    (List.mem_singleton.mpr rfl) (List.mem_singleton.mpr rfl)
    (by norm_num [clip1]) (by norm_num [clip1]) rfl
    (by
      intro tr htr cl hcl _ _
      rw [List.mem_singleton.mp htr] at hcl
      exact List.mem_singleton.mp hcl)

end Ego
